import Mathlib

/- Verification development for the HomeMadeRTOS thread-management core.
   The repository provides the kernel API header (include/osKernel.h) and a
   README documenting the implementation; the kernel body (osKernel.c) is
   not among the provided sources. Where a definition embeds the missing
   body it is modelled from the specification and README, as marked; the
   API shape (exactly four task entry points, uint8 status return) and the
   voluntary-yield idiom are taken from the provided sources. -/

namespace OsKernel

/-- A synthetic CPU register state: the sixteen values the README names as
the thread context saved on every SysTick interrupt (R0-R12, LR, PC, PSR).
Machine words are modelled as `Nat`. -/
structure RegState where
  r0 : Nat
  r1 : Nat
  r2 : Nat
  r3 : Nat
  r4 : Nat
  r5 : Nat
  r6 : Nat
  r7 : Nat
  r8 : Nat
  r9 : Nat
  r10 : Nat
  r11 : Nat
  r12 : Nat
  lr : Nat
  pc : Nat
  psr : Nat
deriving DecidableEq

/-- Modelled from the spec: osKernel.c is absent from the sources; per
section 4.4 (Save) and the README, the complete frame on a suspended
thread's stack holds the eight software-pushed registers R4-R11 on top of
the eight hardware-pushed registers R0-R3, R12, LR, PC, PSR. The list is
ordered from the final stack pointer upward. -/
def saveFrame (s : RegState) : List Nat :=
  [s.r4, s.r5, s.r6, s.r7, s.r8, s.r9, s.r10, s.r11,
   s.r0, s.r1, s.r2, s.r3, s.r12, s.lr, s.pc, s.psr]

/-- Modelled from the spec: osKernel.c is absent from the sources; per
section 4.4 (Restore), the restore path pops the software-saved registers
in mirror order of the save and then the exception-return mechanism pops
the hardware-saved ones. A frame of any other shape is the fatal-trap case
(`none`). -/
def restoreFrame : List Nat → Option RegState
  | [a4, a5, a6, a7, a8, a9, a10, a11,
     a0, a1, a2, a3, a12, alr, apc, apsr] =>
      some ⟨a0, a1, a2, a3, a4, a5, a6, a7, a8, a9, a10, a11, a12, alr, apc, apsr⟩
  | _ => none

/-- The default processor-status word written into a fresh frame: only the
Thumb execution-mode bit (bit 24) is set, per the README ("Default PSR with
Thumb bit set"). -/
def THUMB_PSR : Nat := 0x01000000

/-- The register state a never-run thread starts from: program counter at
the registered entry point, PSR with the Thumb bit set, and all
application-visible general-purpose registers zeroed. -/
def initialRegState (entry : Nat) : RegState :=
  ⟨0, 0, 0, 0, 0, 0, 0, 0, 0, 0, 0, 0, 0, 0, entry, THUMB_PSR⟩

/-- Modelled from the spec: osKernel.c is absent from the sources; per
section 4.1 and the README (Thread Initialization), the Stack Frame Builder
writes a synthetic frame with the entry point as resume address, the
default Thumb PSR, and zeroed placeholders for every register the restore
path will pop. -/
def initFrame (entry : Nat) : List Nat :=
  saveFrame (initialRegState entry)

/-- C2: performing the context-switch save of a synthetic register state
into a TCB frame and then the restore from that frame reproduces exactly
the same register values and resume address: save followed by restore is
the identity on saved contexts. -/
theorem restoreFrame_saveFrame (s : RegState) :
    restoreFrame (saveFrame s) = some s :=
  rfl

/-- C4: the initial frame built for a never-run thread restores, through
the ordinary restore path, to a state whose program counter is the
registered entry point, whose PSR has the Thumb bit (bit 24) set, and whose
application-visible registers are all zero (no garbage escapes); moreover
the frame is in the image of the context switcher's save, hence
indistinguishable from a frame saved by a mid-execution interrupt. -/
theorem initFrame_firstRestore (entry : Nat) :
    (∃ s, initFrame entry = saveFrame s) ∧
    ∃ s, restoreFrame (initFrame entry) = some s ∧
      s.pc = entry ∧ s.psr.testBit 24 = true ∧
      s.r0 = 0 ∧ s.r1 = 0 ∧ s.r2 = 0 ∧ s.r3 = 0 ∧ s.r4 = 0 ∧ s.r5 = 0 ∧
      s.r6 = 0 ∧ s.r7 = 0 ∧ s.r8 = 0 ∧ s.r9 = 0 ∧ s.r10 = 0 ∧ s.r11 = 0 ∧
      s.r12 = 0 ∧ s.lr = 0 := by
  refine ⟨⟨initialRegState entry, rfl⟩, initialRegState entry, rfl, rfl, ?_, ?_⟩
  · show Nat.testBit THUMB_PSR 24 = true
    decide
  · exact ⟨rfl, rfl, rfl, rfl, rfl, rfl, rfl, rfl, rfl, rfl, rfl, rfl, rfl, rfl⟩

/-- Modelled from the spec: osKernel.c is absent from the sources; per
section 4.3 the scheduler's pure selection policy returns current.next, the
circularly-next TCB. Thread identities are ring positions in registration
order, so on a ring of K threads the successor of position c is c + 1 with
wraparound. -/
def schedNext {K : Nat} [NeZero K] (c : Fin K) : Fin K :=
  c + 1

/-- The thread identities selected by N consecutive scheduling events when
thread c is current: event j (counting from zero) schedules ring position
c + 1 + j. -/
def scheduleSeq {K : Nat} [NeZero K] (c : Fin K) (N : Nat) : List (Fin K) :=
  (List.range N).map (fun (j : Nat) => c + 1 + (j : Fin K))

/-- One full cycle of the schedule: the registration order rotated to begin
at the successor of the current thread c. -/
def rotFrom {K : Nat} [NeZero K] (c : Fin K) : List (Fin K) :=
  (List.finRange K).map (fun j => c + 1 + j)

theorem scheduleSeq_cycle {K : Nat} [NeZero K] (c : Fin K) :
    scheduleSeq c K = rotFrom c := by
  unfold scheduleSeq rotFrom
  rw [← List.map_coe_finRange, List.map_map]
  simp [Function.comp_def, Fin.cast_val_eq_self]

theorem scheduleSeq_add_cycle {K : Nat} [NeZero K] (c : Fin K) (m : Nat) :
    scheduleSeq c (m * K + K) = scheduleSeq c (m * K) ++ rotFrom c := by
  unfold scheduleSeq
  rw [List.range_add, List.map_append, List.map_map]
  have h : ∀ j : Nat, ((m * K + j : Nat) : Fin K) = (j : Fin K) := by
    intro j
    simp [Nat.cast_add, Nat.cast_mul, Fin.natCast_self]
  have h2 : ((fun (j : Nat) => c + 1 + (j : Fin K)) ∘ (m * K + ·)) =
      fun j : Nat => c + 1 + (j : Fin K) := by
    funext j
    simp [Function.comp_def, h j]
  rw [h2, ← scheduleSeq_cycle]
  rfl

theorem rotFrom_nodup {K : Nat} [NeZero K] (c : Fin K) :
    (rotFrom c).Nodup :=
  (List.nodup_finRange K).map (add_right_injective (c + 1))

theorem rotFrom_mem {K : Nat} [NeZero K] (c t : Fin K) :
    t ∈ rotFrom c := by
  unfold rotFrom
  refine List.mem_map.mpr ⟨t - (c + 1), List.mem_finRange _, ?_⟩
  abel

theorem rotFrom_count {K : Nat} [NeZero K] (c t : Fin K) :
    (rotFrom c).count t = 1 :=
  List.count_eq_one_of_mem (rotFrom_nodup c) (rotFrom_mem c t)

theorem scheduleSeq_mul_cycle {K : Nat} [NeZero K] (c : Fin K) (m : Nat) :
    scheduleSeq c (m * K) = (List.replicate m (rotFrom c)).flatten := by
  induction m with
  | zero => simp [scheduleSeq]
  | succ m ih =>
      have h1 : (m + 1) * K = m * K + K := by ring
      rw [h1, scheduleSeq_add_cycle, ih, List.replicate_succ',
        List.flatten_append]
      simp

/-- C1: on a ring of K ≥ 1 registered threads with current thread c, a run
of N = m * K scheduling events schedules exactly the registration order
rotated to begin after c, repeated m = N / K times; consequently every
thread is scheduled exactly m times, and each single event selects exactly
the current thread's ring successor (never skipping or reordering). -/
theorem roundRobin_fair {K : Nat} [NeZero K] (c : Fin K) (m : Nat) :
    scheduleSeq c (m * K) = (List.replicate m (rotFrom c)).flatten ∧
    (∀ t : Fin K, (scheduleSeq c (m * K)).count t = m) ∧
    (∀ N, scheduleSeq c (N + 1) = schedNext c :: scheduleSeq (schedNext c) N) := by
  refine ⟨scheduleSeq_mul_cycle c m, ?_, ?_⟩
  · intro t
    rw [scheduleSeq_mul_cycle, List.count_flatten, List.map_replicate,
      rotFrom_count, List.sum_replicate]
    simp
  · intro N
    unfold scheduleSeq schedNext
    rw [List.range_succ_eq_map, List.map_cons, List.map_map]
    have h : ((fun (j : Nat) => c + 1 + (j : Fin K)) ∘ Nat.succ) =
        fun j : Nat => c + 1 + 1 + (j : Fin K) := by
      funext j
      simp [Function.comp_def, Nat.cast_succ]
      ring
    rw [h]
    simp

/-- C1 witness: the theorem instantiated on a concrete three-thread ring
with current thread 0 and two full cycles of events. -/
theorem roundRobin_fair_witness :
    scheduleSeq (0 : Fin 3) (2 * 3) = (List.replicate 2 (rotFrom 0)).flatten ∧
    (scheduleSeq (0 : Fin 3) (2 * 3)).count 1 = 2 := by
  refine ⟨(roundRobin_fair (0 : Fin 3) 2).1, (roundRobin_fair (0 : Fin 3) 2).2.1 1⟩

/-- The two thread states of this kernel (README: "Thread States: Running,
Ready"); there is no blocked/waiting state in scope. -/
inductive TState where
  | Running : TState
  | Ready : TState
deriving DecidableEq

/-- Modelled from the spec: osKernel.c is absent from the sources; the
process-wide kernel context is the single current-thread reference together
with each TCB's observable state. -/
structure KernelCtx (K : Nat) where
  current : Fin K
  status : Fin K → TState

/-- Modelled from the spec: osKernel.c is absent from the sources; per
section 4.5, launch sets the current-thread reference to the first
registered TCB, which becomes Running while every other TCB stays Ready. -/
def launchCtx (K : Nat) [NeZero K] : KernelCtx K :=
  ⟨0, fun i => if i = 0 then TState.Running else TState.Ready⟩

/-- Modelled from the spec: osKernel.c is absent from the sources; per
section 4.4, a switch event commits the current-thread reference to the
ring successor, which becomes Running while every other TCB is Ready. -/
def switchCtx {K : Nat} [NeZero K] (s : KernelCtx K) : KernelCtx K :=
  ⟨schedNext s.current,
   fun i => if i = schedNext s.current then TState.Running else TState.Ready⟩

/-- A TCB is Running exactly when it is the one designated by the single
process-wide current-thread reference; all others are Ready. -/
def uniqueRunning {K : Nat} (s : KernelCtx K) : Prop :=
  ∀ i, (s.status i = TState.Running ↔ i = s.current) ∧
    (i ≠ s.current → s.status i = TState.Ready)

/-- C3: exactly one TCB is Running at every observable instant after
launch, namely the one the current-thread reference designates, and all
other TCBs are Ready; the invariant holds at the launch transition and is
preserved across arbitrarily many switch events. -/
theorem single_running_invariant (K : Nat) [NeZero K] :
    uniqueRunning (launchCtx K) ∧
    (∀ s : KernelCtx K, uniqueRunning (switchCtx s)) ∧
    (∀ n, uniqueRunning (switchCtx^[n] (launchCtx K))) := by
  have hswitch : ∀ s : KernelCtx K, uniqueRunning (switchCtx s) := by
    intro s i
    refine ⟨⟨fun h => ?_, fun h => ?_⟩, fun h => ?_⟩
    · by_cases hc : i = schedNext s.current
      · exact hc
      · rw [show (switchCtx s).status i = TState.Ready from if_neg hc] at h
        exact absurd h (by decide)
    · exact if_pos h
    · exact if_neg h
  have hlaunch : uniqueRunning (launchCtx K) := by
    intro i
    refine ⟨⟨fun h => ?_, fun h => ?_⟩, fun h => ?_⟩
    · by_cases hc : i = (0 : Fin K)
      · exact hc
      · rw [show (launchCtx K).status i = TState.Ready from if_neg hc] at h
        exact absurd h (by decide)
    · exact if_pos h
    · exact if_neg h
  refine ⟨hlaunch, hswitch, fun n => ?_⟩
  induction n with
  | zero => exact hlaunch
  | succ n ih =>
      rw [Function.iterate_succ_apply']
      exact hswitch _

/-- C3 witness: the invariant, obtained from the theorem, on a concrete
four-thread deployment after nine switch events. -/
theorem single_running_invariant_witness :
    uniqueRunning (switchCtx^[9] (launchCtx 4)) :=
  (single_running_invariant 4).2.2 9

/-- The tick-source and scheduler state visible to the yield primitive: the
current thread, the configured quantum (the SysTick reload), the SysTick
current-value register CVR, the SysTick interrupt-pending bit of INTCTRL,
and a count of context switches performed. -/
structure TickState (K : Nat) where
  current : Fin K
  quanta : Nat
  cvr : Nat
  pending : Bool
  switches : Nat
deriving DecidableEq

/-- From src (README Usage, task1): the voluntary yield writes zero to the
SysTick current-value register and writes 0x04000000 (the SysTick
interrupt-pending set bit) to INTCTRL; writing the set bit leaves the bit
set whether or not the interrupt was already pending. -/
def yieldPrim {K : Nat} (s : TickState K) : TickState K :=
  ⟨s.current, s.quanta, 0, true, s.switches⟩

/-- Modelled from the spec: the hardware periodic tick (an external
collaborator, section 6) sets the very same SysTick interrupt-pending bit
when the quantum elapses. -/
def tickFire {K : Nat} (s : TickState K) : TickState K :=
  ⟨s.current, s.quanta, s.cvr, true, s.switches⟩

/-- Modelled from the spec: osKernel.c is absent from the sources; per
sections 4.4 and 5, both triggers funnel into the single SysTick handler
entry point: when the interrupt is pending it is taken exactly once — the
pending bit clears, the counter reloads from the quantum, and the context
switcher advances the current thread to its ring successor. -/
def sysTickHandler {K : Nat} [NeZero K] (s : TickState K) : TickState K :=
  if s.pending then
    ⟨schedNext s.current, s.quanta, s.quanta, false, s.switches + 1⟩
  else s

/-- C5: from any tick-source state, triggering the voluntary yield and
letting the handler run produces exactly the same machine state as letting
the next periodic tick fire naturally and letting the handler run: the same
next-scheduled thread (the ring successor) and the same context-restore
outcome, through the one shared entry point. -/
theorem yield_tick_equiv {K : Nat} [NeZero K] (s : TickState K) :
    sysTickHandler (yieldPrim s) = sysTickHandler (tickFire s) ∧
    (sysTickHandler (yieldPrim s)).current = schedNext s.current ∧
    (sysTickHandler (yieldPrim s)).switches = s.switches + 1 := by
  refine ⟨rfl, rfl, rfl⟩

/-- C5 witness: the equivalence on a concrete four-thread state. -/
theorem yield_tick_equiv_witness :
    sysTickHandler (yieldPrim (⟨2, 80000, 123, false, 5⟩ : TickState 4)) =
      sysTickHandler (tickFire (⟨2, 80000, 123, false, 5⟩ : TickState 4)) ∧
    (sysTickHandler (yieldPrim (⟨2, 80000, 123, false, 5⟩ : TickState 4))).current =
      schedNext (2 : Fin 4) ∧
    (sysTickHandler (yieldPrim (⟨2, 80000, 123, false, 5⟩ : TickState 4))).switches =
      5 + 1 :=
  yield_tick_equiv _

/-- C10: the yield trigger is idempotent with respect to an already-pending
tick: issuing the yield writes are absorbed by the already-set pending bit,
the handler outcome is unchanged, and exactly one context switch of the
schedule occurs — the switch count rises by one and the schedule advances
by a single ring step, not two. -/
theorem yield_pending_one_switch {K : Nat} [NeZero K] (s : TickState K)
    (h : s.pending = true) :
    yieldPrim (yieldPrim s) = yieldPrim s ∧
    sysTickHandler (yieldPrim s) = sysTickHandler s ∧
    (sysTickHandler (yieldPrim s)).switches = s.switches + 1 ∧
    (sysTickHandler (yieldPrim s)).current = schedNext s.current := by
  refine ⟨rfl, ?_, rfl, rfl⟩
  simp [sysTickHandler, yieldPrim, h]

/-- C10 witness: the theorem on a concrete state whose tick interrupt is
already pending. -/
theorem yield_pending_one_switch_witness :
    (⟨1, 80000, 7, true, 2⟩ : TickState 4).pending = true ∧
    (yieldPrim (yieldPrim (⟨1, 80000, 7, true, 2⟩ : TickState 4)) =
      yieldPrim (⟨1, 80000, 7, true, 2⟩ : TickState 4) ∧
    sysTickHandler (yieldPrim (⟨1, 80000, 7, true, 2⟩ : TickState 4)) =
      sysTickHandler (⟨1, 80000, 7, true, 2⟩ : TickState 4) ∧
    (sysTickHandler (yieldPrim (⟨1, 80000, 7, true, 2⟩ : TickState 4))).switches =
      2 + 1 ∧
    (sysTickHandler (yieldPrim (⟨1, 80000, 7, true, 2⟩ : TickState 4))).current =
      schedNext (1 : Fin 4)) :=
  ⟨rfl, yield_pending_one_switch _ rfl⟩

/-- The machine state produced by the scheduler launch: the current-thread
reference, every TCB's saved frame, and the live CPU registers. -/
structure LaunchState (K : Nat) where
  current : Fin K
  frames : Fin K → List Nat
  regs : RegState

/-- Modelled from the spec: osSchedulerLaunch is declared in
src/include/osKernel.h line 15 but its body (osKernel.c) is absent; per
sections 4.4 and 4.5, launch skips the save step (there is no running
thread to save), sets the current-thread reference to the first registered
TCB, and performs restore-only: it loads thread 0's saved frame into the
CPU. A malformed frame is the fatal case (`none`). -/
def osSchedulerLaunch {K : Nat} [NeZero K] (frames : Fin K → List Nat) :
    Option (LaunchState K) :=
  match restoreFrame (frames 0) with
  | some r => some ⟨0, frames, r⟩
  | none => none

/-- C6: launching on the frames built at registration succeeds and is
asymmetric: no TCB's stack is written (the save step is skipped — every
saved frame is exactly the one registration built), the current-thread
reference is set to the first registered TCB, and the CPU resumes at thread
0's entry point (control is handed to thread 0, not returned to the
caller), in thread 0's initial register state. -/
theorem launch_first_switch {K : Nat} [NeZero K] (entries : Fin K → Nat) :
    ∃ st : LaunchState K,
      osSchedulerLaunch (fun i => initFrame (entries i)) = some st ∧
      st.current = 0 ∧
      (∀ i, st.frames i = initFrame (entries i)) ∧
      st.regs.pc = entries 0 ∧
      st.regs = initialRegState (entries 0) := by
  exact ⟨⟨0, fun i => initFrame (entries i), initialRegState (entries 0)⟩,
    rfl, rfl, fun i => rfl, rfl, rfl⟩

/-- C6 witness: launch on a concrete four-thread deployment whose entry
points are 100, 101, 102, 103. -/
theorem launch_first_switch_witness :
    ∃ st : LaunchState 4,
      osSchedulerLaunch (fun i => initFrame (100 + i.val)) = some st ∧
      st.current = 0 ∧
      (∀ i, st.frames i = initFrame (100 + i.val)) ∧
      st.regs.pc = 100 + (0 : Fin 4).val ∧
      st.regs = initialRegState (100 + (0 : Fin 4).val) :=
  launch_first_switch (fun i => 100 + i.val)

/-- One frame's worth of bytes: sixteen 32-bit words (R0-R12, LR, PC,
PSR). -/
def frameBytes : Nat := 64

/-- Modelled from the spec: osKernel.c is absent from the sources; per
section 4.1, build_initial_frame writes the synthetic initial frame at the
top of the thread's private stack region, with the explicit checked
precondition of sections 4.1 and 8: it fails when the region is smaller
than one frame's worth of bytes. -/
def build_initial_frame (regionBytes entry : Nat) : Option (List Nat) :=
  if regionBytes < frameBytes then none
  else some (initFrame entry)

/-- Modelled from the spec: osKernel.c is absent from the sources; per
sections 4.2, 6 and 7, register_threads takes the launch-time bound K, the
per-thread stack-region size in bytes (1024 in the reference deployment)
and the supplied entry points (address 0 is the null pointer); it reports
failure (`none`) on any configuration error — fewer than 1 or more than K
entry points, a null entry point, or a frame that does not fit — and
otherwise returns the TCB frames in registration order. -/
def register_threads (K regionBytes : Nat) (entries : List Nat) :
    Option (List (List Nat)) :=
  if entries.length = 0 ∨ K < entries.length ∨ 0 ∈ entries then none
  else entries.mapM (build_initial_frame regionBytes)

theorem mapM_build_total (regionBytes : Nat) (h : frameBytes ≤ regionBytes)
    (l : List Nat) :
    l.mapM (build_initial_frame regionBytes) = some (l.map initFrame) := by
  induction l with
  | nil => rfl
  | cons a t ih =>
      rw [List.mapM_cons, build_initial_frame, if_neg (Nat.not_lt.mpr h), ih]
      rfl

/-- C7: with the reference deployment's 1024-byte stack regions, thread
registration returns a success status exactly when at least one and at most
K entry points are supplied and every supplied entry point is non-null;
otherwise the failure is reported through the returned status. -/
theorem register_threads_status (K : Nat) (entries : List Nat) :
    (register_threads K 1024 entries).isSome = true ↔
      (1 ≤ entries.length ∧ entries.length ≤ K ∧ ∀ e ∈ entries, e ≠ 0) := by
  unfold register_threads
  by_cases hcond : entries.length = 0 ∨ K < entries.length ∨ 0 ∈ entries
  · rw [if_pos hcond]
    constructor
    · intro h
      exact absurd h (by decide)
    · rintro ⟨h1, h2, h3⟩
      rcases hcond with h | h | h
      · omega
      · omega
      · exact (h3 0 h rfl).elim
  · rw [if_neg hcond, mapM_build_total 1024 (by decide) entries]
    push_neg at hcond
    obtain ⟨h1, h2, h3⟩ := hcond
    refine ⟨fun _ => ⟨by omega, by omega, fun e he h0 => h3 (h0 ▸ he)⟩, fun _ => rfl⟩

/-- C8: whenever a thread's stack region is smaller than one frame's worth
of bytes, the stack-frame builder reports the configuration error and
registration with that region size fails for every supplied entry-point
list — it never succeeds and leaves corruption to the first switch. -/
theorem small_stack_registration_fails (K regionBytes entry : Nat)
    (entries : List Nat) (h : regionBytes < frameBytes) :
    build_initial_frame regionBytes entry = none ∧
    register_threads K regionBytes entries = none := by
  constructor
  · unfold build_initial_frame
    rw [if_pos h]
  · unfold register_threads
    by_cases hcond : entries.length = 0 ∨ K < entries.length ∨ 0 ∈ entries
    · rw [if_pos hcond]
    · rw [if_neg hcond]
      cases entries with
      | nil => exact absurd (Or.inl rfl) hcond
      | cons a t =>
          rw [List.mapM_cons, build_initial_frame, if_pos h]
          rfl

/-- C8 witness: a 32-byte region is below the 64-byte frame, so the builder
and a four-task registration both report failure. -/
theorem small_stack_registration_fails_witness :
    32 < frameBytes ∧
    (build_initial_frame 32 100 = none ∧
      register_threads 4 32 [100, 200, 300, 400] = none) :=
  ⟨by decide, small_stack_registration_fails 4 32 100 [100, 200, 300, 400] (by decide)⟩

/-- From src/include/osKernel.h lines 18-21: the registration API takes
exactly four task entry points (the reference deployment's fixed thread
count) and builds the TCB ring from them in registration order. -/
def osKernelAddThreads (taks0 task1 task2 task3 : Nat) : List Nat :=
  [taks0, task1, task2, task3]

/-- C9 counterexample: the claim that the thread count has no hard-coded
constraint and can be fixed to any count fails at count 3: no invocation of
the registration API can produce a ring of three TCBs, because
osKernelAddThreads takes exactly four entry points and always yields a
four-element ring. -/
theorem ring_any_count_false :
    ¬ ∃ a b c d : Nat, (osKernelAddThreads a b c d).length = 3 := by
  rintro ⟨a, b, c, d, h⟩
  simp [osKernelAddThreads] at h

/-- C9 amended: the TCB ring is fully circular — the last TCB's successor
is the first, and following successors around the four-thread ring returns
to the start — but the thread count is hard-coded: every registration call
yields exactly four TCBs, the deployment's fixed count, immutable
thereafter. -/
theorem ring_circular_count_hardcoded (a b c d : Nat) :
    (osKernelAddThreads a b c d).length = 4 ∧
    schedNext (3 : Fin 4) = 0 ∧
    (∀ i : Fin 4, (schedNext (K := 4))^[4] i = i) := by
  refine ⟨rfl, rfl, ?_⟩
  decide

end OsKernel
